import Mathlib

/-!
Verification of `packages/tao/src/commands/run.ts`.

The file shallowly embeds the three components of the command core:

* `parseRunOpts` — turns the minimist-produced, camel-cased options map and
  the default project name into a structured `RunOptions` record
  (run.ts lines 34-87).  The minimist call itself is an external collaborator
  (a third-party argument tokenizer); the embedding therefore starts from the
  options map it produces: a JavaScript object mapping string keys to string,
  boolean or string-array values, with the positional tokens under the key
  `"_"`.  JavaScript objects are modelled as association lists that preserve
  insertion order (the order `Object.keys` observes for non-numeric keys).
* `validateTargetAndConfiguration` — checks a request against the workspace
  graph (run.ts lines 92-130).
* `iteratorToProcessStatusCode` / `runDispatch` — the dispatch portion of
  `run` (run.ts lines 146-211): the help short-circuit, the native
  promise/iterator branch, and the adapter branch.  A finite async iterator
  of `{success}` outcomes is modelled as a `List Outcome`; a promise that
  resolves is a single `Outcome`; a thrown error is `Except.error`.
-/

set_option autoImplicit false

namespace NxRun

/-- A JavaScript value as it occurs in a minimist options map: a string,
a boolean, or an array of strings (the positional-argument array `_`). -/
inductive JVal where
  | str (s : String)
  | bool (b : Bool)
  | strs (l : List String)
  deriving Repr, DecidableEq

instance {ε α : Type} [DecidableEq ε] [DecidableEq α] : DecidableEq (Except ε α) := fun x y =>
  match x, y with
  | .ok a, .ok b =>
    if h : a = b then .isTrue (congrArg Except.ok h)
    else .isFalse (fun hh => h (Except.ok.inj hh))
  | .ok _, .error _ => .isFalse (fun hh => Except.noConfusion hh)
  | .error _, .ok _ => .isFalse (fun hh => Except.noConfusion hh)
  | .error a, .error b =>
    if h : a = b then .isTrue (congrArg Except.error h)
    else .isFalse (fun hh => h (Except.error.inj hh))

/-- A JavaScript object with string keys, as an insertion-ordered
association list.  `alookup` is property access `m[k]` (`none` = `undefined`). -/
def alookup {α : Type} (m : List (String × α)) (k : String) : Option α :=
  match m with
  | [] => none
  | p :: rest => if p.fst = k then some p.snd else alookup rest k

/-- The `delete m[k]` statement: removes the key from the object. -/
def jdelete (m : List (String × JVal)) (k : String) : List (String × JVal) :=
  match m with
  | [] => []
  | p :: rest => if p.fst = k then jdelete rest k else p :: jdelete rest k

/-- JavaScript truthiness of an optional value (`none` = `undefined`):
`undefined` and `""` are falsy, booleans are themselves, arrays are truthy. -/
def truthy : Option JVal → Bool
  | none => false
  | some (JVal.str s) => s != ""
  | some (JVal.bool b) => b
  | some (JVal.strs _) => true

/-- Truthiness of an optional string (`undefined` and `""` are falsy). -/
def truthyStr : Option String → Bool
  | none => false
  | some s => s != ""

/-- Reads a value `as string` where the source expects a string flag value. -/
def getStr : Option JVal → Option String
  | some (JVal.str s) => some s
  | _ => none

/-- `runOptions._[0]`: the first positional token, when `_` is the
minimist positional string array. -/
def posFirst (m : List (String × JVal)) : Option String :=
  match alookup m "_" with
  | some (JVal.strs l) => l.head?
  | _ => none

/-- The structured run request (interface `RunOptions`, run.ts lines 20-26).
`configuration` is `none` when the field is `undefined`. -/
structure RunOptions where
  project : String
  target : String
  configuration : Option String
  help : Bool
  runOptions : List (String × JVal)
  deriving Repr, DecidableEq

/-- The error thrown by `throwInvalidInvocation` (run.ts lines 28-32). -/
inductive RunError where
  | invalidInvocation
  deriving Repr, DecidableEq

/-- JavaScript `String.prototype.split` with a one-character separator, on
the underlying character list: `"" ↦ [""]`, a separator at either end
produces an empty part. -/
def splitChars (sep : Char) : List Char → List (List Char)
  | [] => [[]]
  | c :: rest =>
    if c = sep then [] :: splitChars sep rest
    else
      match splitChars sep rest with
      | [] => [[c]]
      | h :: t => (c :: h) :: t

/-- JavaScript `s.split(sep)` for a one-character separator. -/
def splitOnChar (sep : Char) (s : String) : List String :=
  (splitChars sep s.data).map String.mk

/-- `runOptions._[0].split(':')` (run.ts line 57). -/
def positionalParts (m : List (String × JVal)) : List String :=
  splitOnChar ':' ((posFirst m).getD "")

/-- The project name after the default and the `project` flag are applied
(run.ts lines 58-65 and 72-74): the destructured `project` segment, replaced
by `defaultProjectName` when falsy and a default is available, then
overridden by a truthy `project` flag. -/
def resolvedProject (m : List (String × JVal)) (defaultProjectName : Option String) :
    Option String :=
  let project0 := (positionalParts m)[0]?
  let project1 :=
    if !(truthyStr project0) && truthyStr defaultProjectName then defaultProjectName
    else project0
  if truthy (alookup m "project") then getStr (alookup m "project") else project1

/-- The target name: the second destructured segment (run.ts line 53-57);
no flag overrides it. -/
def resolvedTarget (m : List (String × JVal)) : Option String :=
  (positionalParts m)[1]?

/-- The configuration after flags (run.ts lines 66-71): the third segment,
overridden by a truthy `configuration` flag, then forced to `"production"`
by a truthy `prod` flag. -/
def resolvedConfiguration (m : List (String × JVal)) : Option String :=
  let configuration0 := (positionalParts m)[2]?
  let configuration1 :=
    if truthy (alookup m "configuration") then getStr (alookup m "configuration")
    else configuration0
  if truthy (alookup m "prod") then some "production" else configuration1

/-- The six `delete runOptions[...]` statements (run.ts lines 79-84). -/
def stripRecognized (m : List (String × JVal)) : List (String × JVal) :=
  jdelete (jdelete (jdelete (jdelete (jdelete (jdelete m "help") "_") "c")
    "configuration") "prod") "project"

/-- `parseRunOpts` (run.ts lines 34-87), starting from the minimist-produced
options map `m` and the default project name.  Throws (returns
`.error .invalidInvocation`) when the positional array or its first token is
falsy (line 49-51) or when the resolved project or target is falsy
(line 75-77); otherwise returns the record of line 78 with the recognized
keys deleted from the residual options (lines 79-84). -/
def parseRunOpts (m : List (String × JVal)) (defaultProjectName : Option String) :
    Except RunError RunOptions :=
  if !(truthy (alookup m "_")) || !(truthyStr (posFirst m)) then
    .error .invalidInvocation
  else if !(truthyStr (resolvedProject m defaultProjectName)) ||
      !(truthyStr (resolvedTarget m)) then
    .error .invalidInvocation
  else
    .ok { project := (resolvedProject m defaultProjectName).getD ""
          target := (resolvedTarget m).getD ""
          configuration := resolvedConfiguration m
          help := truthy (alookup m "help")
          runOptions := stripRecognized m }

/-!  The workspace graph consumed by `validateTargetAndConfiguration`.
The shapes come from the spec's data model (the interfaces live in
`shared/workspace.ts`, outside the visible source): maps are modelled as
insertion-ordered association lists, matching the order `Object.keys`
returns for non-numeric string keys. -/

/-- An executor options map (opaque here). -/
abbrev OptionsMap := List (String × JVal)

/-- Modelled from the spec: `TargetDescriptor` —
`{ executorRef: string, configurations?: map<string, optionsOverride>, options?: defaultOptions }`
(the `TargetConfiguration` interface of `shared/workspace.ts`, not in the
visible source).  `configurations = none` models an absent property. -/
structure TargetConfiguration where
  executor : String
  options : Option OptionsMap := none
  configurations : Option (List (String × OptionsMap)) := none
  deriving Repr, DecidableEq

/-- Modelled from the spec: a project's target map (part of
`WorkspaceConfiguration` in `shared/workspace.ts`, not in the visible
source). -/
structure ProjectConfiguration where
  targets : List (String × TargetConfiguration)
  deriving Repr, DecidableEq

/-- Modelled from the spec: the workspace's project map (the
`WorkspaceConfiguration` interface of `shared/workspace.ts`, not in the
visible source). -/
structure WorkspaceConfiguration where
  projects : List (String × ProjectConfiguration)
  deriving Repr, DecidableEq

/-- The errors thrown by `validateTargetAndConfiguration`
(run.ts lines 96-129), with the data interpolated into each message kept as
a structured payload.  `targetNotFound` carries `availableTargets`
(line 99, `Object.keys(project.targets)`, joined into the message at
line 105); `configurationNotFound` carries
`Object.keys(target.configurations)` (line 119). -/
inductive ValidationError where
  | projectNotFound (project : String)
  | targetNotFound (target : String) (project : String) (availableTargets : List String)
  | configurationNotFound (configuration : String) (project : String) (target : String)
      (validConfigurations : List String)
  | noConfigurationsDefined (configuration : String) (project : String) (target : String)
  deriving Repr, DecidableEq

/-- Whether a validation error is one of the two `ConfigurationNotFoundError`
variants (the "not found" message of run.ts line 116 or the "none defined"
message of line 125). -/
def ValidationError.isConfigurationError : ValidationError → Bool
  | ValidationError.configurationNotFound _ _ _ _ => true
  | ValidationError.noConfigurationsDefined _ _ _ => true
  | _ => false

/-- `validateTargetAndConfiguration` (run.ts lines 92-130). -/
def validateTargetAndConfiguration (workspace : WorkspaceConfiguration)
    (opts : RunOptions) : Except ValidationError Unit :=
  match alookup workspace.projects opts.project with
  | none => .error (.projectNotFound opts.project)
  | some project =>
    let availableTargets := project.targets.map Prod.fst
    match alookup project.targets opts.target with
    | none => .error (.targetNotFound opts.target opts.project availableTargets)
    | some target =>
      -- Not all targets have configurations and an undefined configuration is valid
      if truthyStr opts.configuration then
        match target.configurations with
        | some configurations =>
          match alookup configurations (opts.configuration.getD "") with
          | some _ => .ok ()
          | none => .error (.configurationNotFound (opts.configuration.getD "")
              opts.project opts.target (configurations.map Prod.fst))
        | none => .error (.noConfigurationsDefined (opts.configuration.getD "")
            opts.project opts.target)
      else
        .ok ()

/-!  The dispatch portion of `run` (run.ts lines 146-211). -/

/-- A `{success: boolean}` executor result element. -/
structure Outcome where
  success : Bool
  deriving Repr, DecidableEq

/-- A runtime error inside dispatch: reading `.success` of `undefined`
(`r.success` at run.ts line 152 when the loop never ran). -/
inductive JsError where
  | readSuccessOfUndefined
  deriving Repr, DecidableEq

/-- `iteratorToProcessStatusCode` (run.ts lines 146-153): `let r;` then
`for await (r of i) {}` leaves `r` at the last element (`none` = still
`undefined` when the iterator was empty); then `r.success ? 0 : 1`, which
throws a TypeError when `r` is `undefined`. -/
def iteratorToProcessStatusCode (i : List Outcome) : Except JsError Nat :=
  match i.foldl (fun _ x => some x) (none : Option Outcome) with
  | some r => .ok (if r.success then 0 else 1)
  | none => .error .readSuccessOfUndefined

/-- What a native executor implementation returns (run.ts lines 138-144):
a promise of a single outcome, or an async iterator of outcomes. -/
inductive ExecutorResult where
  | promise (o : Outcome)
  | iterator (os : List Outcome)

/-- The inputs to the dispatch portion of `run` (after validation and option
combination): the request's `help` flag, the collaborator answers
(`ws.isNxExecutor`, the loaded `implementation`, and the adapter's outcome
stream from `scheduleTarget`/`eachValueFrom`). -/
structure DispatchInput where
  help : Bool
  isNxExecutor : Bool
  implementation : Unit → ExecutorResult
  adapterOutcomes : List Outcome

/-- The observable result of dispatch: the exit code (or propagated error),
whether the executor implementation was invoked, and whether help was
rendered via `printRunHelp`. -/
structure DispatchResult where
  exitCode : Except JsError Nat
  implementationInvoked : Bool
  helpRendered : Bool
  deriving Repr, DecidableEq

/-- The dispatch portion of `run` (run.ts lines 180-211): the help
short-circuit (lines 180-183), the native branch calling `implementation`
and splitting on `isPromise` (lines 185-196), and the adapter branch
(lines 197-210). -/
def runDispatch (inp : DispatchInput) : DispatchResult :=
  if inp.help then
    { exitCode := .ok 0, implementationInvoked := false, helpRendered := true }
  else if inp.isNxExecutor then
    match inp.implementation () with
    | .promise o =>
      { exitCode := .ok (if o.success then 0 else 1)
        implementationInvoked := true, helpRendered := false }
    | .iterator os =>
      { exitCode := iteratorToProcessStatusCode os
        implementationInvoked := true, helpRendered := false }
  else
    { exitCode := iteratorToProcessStatusCode inp.adapterOutcomes
      implementationInvoked := false, helpRendered := false }

/-!  Concrete fixtures used to instantiate the theorems. -/

/-- Lexicographic comparison of character lists by code point. -/
def charListLt : List Char → List Char → Bool
  | [], [] => false
  | [], _ :: _ => true
  | _ :: _, [] => false
  | a :: as, b :: bs =>
    if a.toNat < b.toNat then true
    else if b.toNat < a.toNat then false
    else charListLt as bs

/-- Lexicographic string comparison by code point (the order
`Array.prototype.sort` uses for strings). -/
def strLt (a b : String) : Bool := charListLt a.data b.data

/-- `strSortedFrom a l`: `a :: l` is weakly ascending under `strLt`. -/
def strSortedFrom (a : String) : List String → Bool
  | [] => true
  | b :: rest => (strLt a b || a == b) && strSortedFrom b rest

/-- Ascending lexicographic sortedness of a list of strings (the order a
"sorted list of target names" would be in). -/
def strSorted : List String → Bool
  | [] => true
  | a :: rest => strSortedFrom a rest

/-- A target with no `configurations` property. -/
def plainTarget : TargetConfiguration := { executor := "mod:exec" }

/-- A target declaring configurations `a1` then `b1`. -/
def configuredTarget : TargetConfiguration :=
  { executor := "mod:exec", configurations := some [("a1", []), ("b1", [])] }

/-- A workspace whose project `p` declares its targets in the order `b`, `a`. -/
def wsUnsortedTargets : WorkspaceConfiguration :=
  ⟨[("p", ⟨[("b", plainTarget), ("a", plainTarget)]⟩)]⟩

/-- A workspace whose project `p` has one target `b` without configurations. -/
def wsNoConfigurations : WorkspaceConfiguration :=
  ⟨[("p", ⟨[("b", plainTarget)]⟩)]⟩

/-- A workspace whose project `p` has one target `b` with configurations. -/
def wsConfigured : WorkspaceConfiguration :=
  ⟨[("p", ⟨[("b", configuredTarget)]⟩)]⟩

/-- A request for a target `x` that project `p` does not declare. -/
def optsMissingTarget : RunOptions :=
  { project := "p", target := "x", configuration := none, help := false, runOptions := [] }

/-- A request whose configuration name is the empty string. -/
def optsEmptyConfiguration : RunOptions :=
  { project := "p", target := "b", configuration := some "", help := false, runOptions := [] }

/-- A request for a configuration `x` that target `b` does not declare. -/
def optsMissingConfiguration : RunOptions :=
  { project := "p", target := "b", configuration := some "x", help := false, runOptions := [] }

/-- Options map for `run proj:build:x --prod -c staging --project=other`. -/
def mapPrecedence : List (String × JVal) :=
  [("_", JVal.strs ["proj:build:x"]), ("c", JVal.str "staging"),
   ("configuration", JVal.str "staging"), ("prod", JVal.bool true),
   ("project", JVal.str "other")]

/-- Options map for `run proj:build:x --configuration=staging` (no `prod`). -/
def mapConfigFlag : List (String × JVal) :=
  [("_", JVal.strs ["proj:build:x"]), ("c", JVal.str "staging"),
   ("configuration", JVal.str "staging"), ("prod", JVal.bool false),
   ("help", JVal.bool false)]

/-- Options map for `run proj:build`. -/
def mapPositional : List (String × JVal) := [("_", JVal.strs ["proj:build"])]

/-- Options map whose positional token has four `:`-separated parts. -/
def mapPositional4 : List (String × JVal) := [("_", JVal.strs ["p:t:c:extra"])]

/-- Options map with no positional token. -/
def mapNoPositional : List (String × JVal) :=
  [("_", JVal.strs []), ("help", JVal.bool false), ("prod", JVal.bool false)]

/-- Options map with executor-specific pass-through flags. -/
def mapResidual : List (String × JVal) :=
  [("_", JVal.strs ["proj:build"]), ("help", JVal.bool false),
   ("prod", JVal.bool false), ("watch", JVal.bool true),
   ("outputPath", JVal.str "dist")]

/-- The request parsed from `mapResidual`. -/
def reqResidual : RunOptions :=
  { project := "proj", target := "build", configuration := none, help := false,
    runOptions := [("watch", JVal.bool true), ("outputPath", JVal.str "dist")] }

/-- The request parsed from `mapPrecedence`. -/
def reqPrecedence : RunOptions :=
  { project := "other", target := "build", configuration := some "production",
    help := false, runOptions := [] }

/-- The request parsed from `mapConfigFlag`. -/
def reqConfigFlag : RunOptions :=
  { project := "proj", target := "build", configuration := some "staging",
    help := false, runOptions := [] }

/-- Options map with empty-string `configuration` and `project` flags. -/
def mapEmptyFlags : List (String × JVal) :=
  [("_", JVal.strs ["p:t:c"]), ("configuration", JVal.str ""),
   ("project", JVal.str "")]

/-!  Helper lemmas. -/

theorem truthyStr_eq_true_iff (o : Option String) :
    truthyStr o = true ↔ ∃ s, o = some s ∧ s ≠ "" := by
  cases o with
  | none => simp [truthyStr]
  | some s => simp [truthyStr, bne_iff_ne]

theorem alookup_cons_pos {α : Type} (p : String × α) (rest : List (String × α))
    (k : String) (h : p.fst = k) : alookup (p :: rest) k = some p.snd := by
  simp [alookup, h]

theorem alookup_cons_neg {α : Type} (p : String × α) (rest : List (String × α))
    (k : String) (h : ¬p.fst = k) : alookup (p :: rest) k = alookup rest k := by
  simp [alookup, h]

theorem jdelete_cons_pos (p : String × JVal) (rest : List (String × JVal))
    (k : String) (h : p.fst = k) : jdelete (p :: rest) k = jdelete rest k := by
  simp [jdelete, h]

theorem jdelete_cons_neg (p : String × JVal) (rest : List (String × JVal))
    (k : String) (h : ¬p.fst = k) : jdelete (p :: rest) k = p :: jdelete rest k := by
  simp [jdelete, h]

theorem alookup_jdelete (m : List (String × JVal)) (k k2 : String) :
    alookup (jdelete m k) k2 = if k2 = k then none else alookup m k2 := by
  induction m with
  | nil => simp [jdelete, alookup]
  | cons p rest ih =>
    by_cases h2 : k2 = k
    · subst h2
      have ih2 : alookup (jdelete rest k2) k2 = none := by simpa using ih
      by_cases h1 : p.fst = k2
      · rw [jdelete_cons_pos p rest k2 h1, ih2, if_pos rfl]
      · rw [jdelete_cons_neg p rest k2 h1, alookup_cons_neg p _ k2 h1, ih2, if_pos rfl]
    · have ih2 : alookup (jdelete rest k) k2 = alookup rest k2 := by
        rw [ih, if_neg h2]
      rw [if_neg h2]
      by_cases h1 : p.fst = k
      · have h3 : ¬p.fst = k2 := fun hh => h2 ((hh.symm.trans h1).symm ▸ rfl)
        rw [jdelete_cons_pos p rest k h1, ih2, alookup_cons_neg p rest k2 h3]
      · by_cases h3 : p.fst = k2
        · rw [jdelete_cons_neg p rest k h1, alookup_cons_pos p _ k2 h3,
            alookup_cons_pos p rest k2 h3]
        · rw [jdelete_cons_neg p rest k h1, alookup_cons_neg p _ k2 h3,
            alookup_cons_neg p rest k2 h3, ih2]

theorem jdelete_comm (m : List (String × JVal)) (a b : String) :
    jdelete (jdelete m a) b = jdelete (jdelete m b) a := by
  induction m with
  | nil => rfl
  | cons p rest ih =>
    by_cases h1 : p.fst = a
    · by_cases h2 : p.fst = b
      · rw [jdelete_cons_pos p rest a h1, jdelete_cons_pos p rest b h2]
        exact ih
      · rw [jdelete_cons_pos p rest a h1, jdelete_cons_neg p rest b h2,
          jdelete_cons_pos p _ a h1]
        exact ih
    · by_cases h2 : p.fst = b
      · rw [jdelete_cons_neg p rest a h1, jdelete_cons_pos p _ b h2,
          jdelete_cons_pos p rest b h2]
        exact ih
      · rw [jdelete_cons_neg p rest a h1, jdelete_cons_neg p _ b h2,
          jdelete_cons_neg p rest b h2, jdelete_cons_neg p _ a h1, ih]

theorem jdelete_idem (m : List (String × JVal)) (k : String) :
    jdelete (jdelete m k) k = jdelete m k := by
  induction m with
  | nil => rfl
  | cons p rest ih =>
    by_cases h1 : p.fst = k
    · rw [jdelete_cons_pos p rest k h1]
      exact ih
    · rw [jdelete_cons_neg p rest k h1, jdelete_cons_neg p _ k h1, ih]

theorem posFirst_some_us_truthy (m : List (String × JVal)) (s : String)
    (h : posFirst m = some s) : truthy (alookup m "_") = true := by
  unfold posFirst at h
  cases hl : alookup m "_" with
  | none => rw [hl] at h; exact absurd h (by simp)
  | some v =>
    cases v with
    | str _ => rw [hl] at h; exact absurd h (by simp)
    | bool _ => rw [hl] at h; exact absurd h (by simp)
    | strs _ => simp [hl, truthy]

theorem posFirst_none_of_us_falsy (m : List (String × JVal))
    (h : truthy (alookup m "_") = false) : posFirst m = none := by
  unfold posFirst
  cases hl : alookup m "_" with
  | none => rfl
  | some v =>
    cases v with
    | str _ => rfl
    | bool b => rfl
    | strs _ => rw [hl] at h; exact absurd h (by simp [truthy])

/-- Case analysis of `parseRunOpts`: the success shape. -/
theorem parseRunOpts_ok_iff (m : List (String × JVal)) (d : Option String)
    (r : RunOptions) :
    parseRunOpts m d = .ok r ↔
      truthy (alookup m "_") = true ∧ truthyStr (posFirst m) = true ∧
      truthyStr (resolvedProject m d) = true ∧ truthyStr (resolvedTarget m) = true ∧
      r = { project := (resolvedProject m d).getD ""
            target := (resolvedTarget m).getD ""
            configuration := resolvedConfiguration m
            help := truthy (alookup m "help")
            runOptions := stripRecognized m } := by
  unfold parseRunOpts
  cases h1 : truthy (alookup m "_") <;> cases h2 : truthyStr (posFirst m) <;>
    cases h3 : truthyStr (resolvedProject m d) <;>
      cases h4 : truthyStr (resolvedTarget m) <;>
        simp [h1, h2, h3, h4, eq_comm]

/-- Case analysis of `parseRunOpts`: the failure shape. -/
theorem parseRunOpts_error_iff (m : List (String × JVal)) (d : Option String) :
    parseRunOpts m d = .error .invalidInvocation ↔
      truthy (alookup m "_") = false ∨ truthyStr (posFirst m) = false ∨
      truthyStr (resolvedProject m d) = false ∨ truthyStr (resolvedTarget m) = false := by
  unfold parseRunOpts
  cases h1 : truthy (alookup m "_") <;> cases h2 : truthyStr (posFirst m) <;>
    cases h3 : truthyStr (resolvedProject m d) <;>
      cases h4 : truthyStr (resolvedTarget m) <;>
        simp [h1, h2, h3, h4]

theorem foldl_last_seen (l : List Outcome) (o : Outcome) (acc : Option Outcome) :
    (l ++ [o]).foldl (fun _ x => some x) acc = some o := by
  rw [List.foldl_append]
  rfl

/-!  The claims. -/

/-- C1: for a single deferred outcome, dispatch returns exit code 0 when
`success` is true and 1 when it is false; for a non-empty lazy sequence of
outcomes, dispatch consumes every element and returns an exit code
determined solely by the last element's `success` flag, regardless of the
earlier elements' values. -/
theorem dispatch_exit_code_from_outcomes :
    (∀ (o : Outcome) (ad : List Outcome),
      runDispatch ⟨false, true, fun _ => ExecutorResult.promise o, ad⟩ =
        { exitCode := .ok (if o.success then 0 else 1)
          implementationInvoked := true, helpRendered := false }) ∧
    (∀ (l : List Outcome) (o : Outcome) (ad : List Outcome),
      runDispatch ⟨false, true, fun _ => ExecutorResult.iterator (l ++ [o]), ad⟩ =
        { exitCode := .ok (if o.success then 0 else 1)
          implementationInvoked := true, helpRendered := false }) := by
  constructor
  · intro o ad
    rfl
  · intro l o ad
    simp [runDispatch, iteratorToProcessStatusCode, foldl_last_seen]

/-- C3: with `help` set, the executor implementation is never invoked; the
help text is rendered and the run returns exit code 0. -/
theorem help_skips_executor (nx : Bool) (impl : Unit → ExecutorResult)
    (ad : List Outcome) :
    runDispatch ⟨true, nx, impl, ad⟩ =
      { exitCode := .ok 0, implementationInvoked := false, helpRendered := true } := rfl

/-- C9: an outcome sequence producing zero elements does not yield an exit
code: reading `.success` of the undefined loop variable throws, and the
error propagates out of both the native and the adapter dispatch branch
instead of being converted to exit code 0 or 1. -/
theorem empty_outcome_sequence_throws :
    iteratorToProcessStatusCode [] = .error .readSuccessOfUndefined ∧
    (∀ code : Nat, iteratorToProcessStatusCode [] ≠ .ok code) ∧
    (∀ ad : List Outcome,
      (runDispatch ⟨false, true, fun _ => ExecutorResult.iterator [], ad⟩).exitCode =
        .error .readSuccessOfUndefined) ∧
    (∀ impl : Unit → ExecutorResult,
      (runDispatch ⟨false, false, impl, []⟩).exitCode =
        .error .readSuccessOfUndefined) := by
  refine ⟨rfl, ?_, fun ad => rfl, fun impl => rfl⟩
  intro code h
  exact Except.noConfusion h

/-- C5 counterexample: for a project declaring its targets in the order
`b`, `a`, the `TargetNotFoundError` payload lists the target names in that
declaration order, which is not sorted — the code never sorts
`Object.keys(project.targets)`. -/
theorem targetNotFound_payload_not_sorted_cex :
    validateTargetAndConfiguration wsUnsortedTargets optsMissingTarget =
      .error (.targetNotFound "x" "p" ["b", "a"]) ∧
    strSorted ["b", "a"] = false ∧ strSorted ["a", "b"] = true := by
  refine ⟨by decide, by decide, by decide⟩

/-- C5 (amended): when the project exists but the target name is not a key
of its target map, validation fails with `TargetNotFoundError` whose payload
lists the project's valid target names in declaration order (the order of
`Object.keys(project.targets)`). -/
theorem targetNotFound_lists_declared_targets (ws : WorkspaceConfiguration)
    (opts : RunOptions) (project : ProjectConfiguration)
    (hp : alookup ws.projects opts.project = some project)
    (ht : alookup project.targets opts.target = none) :
    validateTargetAndConfiguration ws opts =
      .error (.targetNotFound opts.target opts.project
        (project.targets.map Prod.fst)) := by
  simp only [validateTargetAndConfiguration, hp, ht]

/-- C5 witness: the amended theorem applied to a concrete workspace. -/
theorem targetNotFound_lists_declared_targets_witness :
    validateTargetAndConfiguration wsUnsortedTargets
      { project := "p", target := "missing", configuration := none, help := false,
        runOptions := [] } =
      .error (.targetNotFound "missing" "p" ["b", "a"]) :=
  targetNotFound_lists_declared_targets wsUnsortedTargets
    { project := "p", target := "missing", configuration := none, help := false,
      runOptions := [] }
    ⟨[("b", plainTarget), ("a", plainTarget)]⟩ (by decide) (by decide)

/-- C6 counterexample: a request whose `configurationName` is set to the
empty string, against a target declaring no configurations map, validates
successfully — the check `if (opts.configuration)` is a truthiness test, so
the claim's "if and only if the configuration name is set" fails at
`some ""`. -/
theorem configuration_check_skipped_for_empty_string_cex :
    validateTargetAndConfiguration wsNoConfigurations optsEmptyConfiguration = .ok () ∧
    optsEmptyConfiguration.configuration.isSome = true ∧
    alookup wsNoConfigurations.projects "p" = some ⟨[("b", plainTarget)]⟩ ∧
    plainTarget.configurations = none := by
  refine ⟨by decide, by decide, by decide, by decide⟩

/-- C6 (amended): for a request whose project and target resolve, validation
fails with a `ConfigurationNotFoundError` if and only if the configuration
name is set to a non-empty string and either the target declares no
configurations map (variant "none defined") or the configurations map lacks
that name (variant "not found", whose payload lists the valid configuration
names); a request with no configuration name never fails the configuration
check. -/
theorem configuration_error_iff_nonempty_missing (ws : WorkspaceConfiguration)
    (opts : RunOptions) (project : ProjectConfiguration)
    (target : TargetConfiguration)
    (hp : alookup ws.projects opts.project = some project)
    (ht : alookup project.targets opts.target = some target) :
    ((∃ e, validateTargetAndConfiguration ws opts = .error e ∧
        e.isConfigurationError = true) ↔
      (∃ s, opts.configuration = some s ∧ s ≠ "" ∧
        (target.configurations = none ∨
          (∃ cfgs, target.configurations = some cfgs ∧ alookup cfgs s = none)))) ∧
    (∀ s, opts.configuration = some s → s ≠ "" → target.configurations = none →
      validateTargetAndConfiguration ws opts =
        .error (.noConfigurationsDefined s opts.project opts.target)) ∧
    (∀ s cfgs, opts.configuration = some s → s ≠ "" →
      target.configurations = some cfgs → alookup cfgs s = none →
      validateTargetAndConfiguration ws opts =
        .error (.configurationNotFound s opts.project opts.target
          (cfgs.map Prod.fst))) ∧
    (opts.configuration = none → validateTargetAndConfiguration ws opts = .ok ()) := by
  by_cases htr : truthyStr opts.configuration = true
  · obtain ⟨s, hs, hne⟩ := (truthyStr_eq_true_iff _).mp htr
    rcases hcfg : target.configurations with _ | cfgs
    · have hv : validateTargetAndConfiguration ws opts =
          .error (.noConfigurationsDefined s opts.project opts.target) := by
        simp only [validateTargetAndConfiguration, hp, ht]
        rw [if_pos htr]
        simp only [hcfg, hs, Option.getD_some]
      refine ⟨iff_of_true ⟨_, hv, rfl⟩ ⟨s, hs, hne, Or.inl rfl⟩, ?_, ?_, ?_⟩
      · intro s2 hs2 _ _
        rw [hs] at hs2
        cases Option.some.inj hs2
        exact hv
      · intro s2 cfgs2 _ _ hcfg2 _
        exact Option.noConfusion hcfg2
      · intro hn
        rw [hs] at hn
        exact Option.noConfusion hn
    · rcases hlk : alookup cfgs s with _ | v
      · have hv : validateTargetAndConfiguration ws opts =
            .error (.configurationNotFound s opts.project opts.target
              (cfgs.map Prod.fst)) := by
          simp only [validateTargetAndConfiguration, hp, ht]
          rw [if_pos htr]
          simp only [hcfg, hs, Option.getD_some, hlk]
        refine ⟨iff_of_true ⟨_, hv, rfl⟩ ⟨s, hs, hne, Or.inr ⟨cfgs, rfl, hlk⟩⟩,
          ?_, ?_, ?_⟩
        · intro s2 hs2 _ hcfg2
          exact Option.noConfusion hcfg2
        · intro s2 cfgs2 hs2 _ hcfg2 hlk2
          rw [hs] at hs2
          cases Option.some.inj hs2
          cases Option.some.inj hcfg2
          exact hv
        · intro hn
          rw [hs] at hn
          exact Option.noConfusion hn
      · have hv : validateTargetAndConfiguration ws opts = .ok () := by
          simp only [validateTargetAndConfiguration, hp, ht]
          rw [if_pos htr]
          simp only [hcfg, hs, Option.getD_some, hlk]
        refine ⟨?_, ?_, ?_, ?_⟩
        · refine iff_of_false ?_ ?_
          · rintro ⟨e, he, -⟩
            rw [hv] at he
            exact Except.noConfusion he
          · rintro ⟨s2, hs2, -, hd⟩
            rw [hs] at hs2
            cases Option.some.inj hs2
            rcases hd with hd | ⟨cfgs2, hcfg2, hlk2⟩
            · exact Option.noConfusion hd
            · cases Option.some.inj hcfg2
              rw [hlk] at hlk2
              exact Option.noConfusion hlk2
        · intro s2 hs2 _ hcfg2
          exact Option.noConfusion hcfg2
        · intro s2 cfgs2 hs2 _ hcfg2 hlk2
          rw [hs] at hs2
          cases Option.some.inj hs2
          cases Option.some.inj hcfg2
          rw [hlk] at hlk2
          exact Option.noConfusion hlk2
        · intro hn
          rw [hs] at hn
          exact Option.noConfusion hn
  · have hv : validateTargetAndConfiguration ws opts = .ok () := by
      simp only [validateTargetAndConfiguration, hp, ht]
      rw [if_neg htr]
    refine ⟨?_, ?_, ?_, fun _ => hv⟩
    · refine iff_of_false ?_ ?_
      · rintro ⟨e, he, -⟩
        rw [hv] at he
        exact Except.noConfusion he
      · rintro ⟨s, hs, hne, -⟩
        apply htr
        rw [hs]
        exact bne_iff_ne.mpr hne
    · intro s hs hne _
      exact absurd (hs ▸ bne_iff_ne.mpr hne) htr
    · intro s cfgs hs hne _ _
      exact absurd (hs ▸ bne_iff_ne.mpr hne) htr

/-- C6 witness: the amended theorem applied to a concrete workspace with a
missing configuration name, listing the declared configuration names. -/
theorem configuration_error_iff_nonempty_missing_witness :
    validateTargetAndConfiguration wsConfigured optsMissingConfiguration =
      .error (.configurationNotFound "x" "p" "b" ["a1", "b1"]) :=
  (configuration_error_iff_nonempty_missing wsConfigured optsMissingConfiguration
      ⟨[("b", configuredTarget)]⟩ configuredTarget (by decide) (by decide)).2.2.1
    "x" [("a1", []), ("b1", [])] (by decide) (by decide) (by decide) (by decide)

/-- C2: flag precedence — a truthy `prod` flag forces the configuration to
`"production"`, overriding even an explicit `configuration` flag; absent a
truthy `prod`, a non-empty `configuration` flag (or its minimist alias `c`,
which always carries the same value) overrides the positional configuration
segment; a non-empty `project` flag overrides both the positional project
segment and the default project name. -/
theorem parse_flag_precedence (m : List (String × JVal)) (d : Option String)
    (halias : alookup m "c" = alookup m "configuration") (r : RunOptions)
    (hr : parseRunOpts m d = .ok r) :
    (alookup m "prod" = some (JVal.bool true) → r.configuration = some "production") ∧
    (∀ v, v ≠ "" → truthy (alookup m "prod") = false →
      (alookup m "configuration" = some (JVal.str v) ∨
        alookup m "c" = some (JVal.str v)) →
      r.configuration = some v) ∧
    (∀ v, v ≠ "" → alookup m "project" = some (JVal.str v) → r.project = v) := by
  rw [parseRunOpts_ok_iff] at hr
  obtain ⟨-, -, -, -, hrec⟩ := hr
  subst hrec
  refine ⟨?_, ?_, ?_⟩
  · intro hprod
    simp [resolvedConfiguration, hprod, truthy]
  · intro v hv hprod hcase
    have hconf : alookup m "configuration" = some (JVal.str v) := by
      rcases hcase with h | h
      · exact h
      · exact halias.symm.trans h
    have hct : truthy (alookup m "configuration") = true := by
      rw [hconf]
      simp [truthy, bne_iff_ne.mpr hv]
    show resolvedConfiguration m = some v
    simp only [resolvedConfiguration]
    rw [hprod, if_neg Bool.false_ne_true, hct, if_pos rfl, hconf]
    rfl
  · intro v hv hproj
    have hpt : truthy (alookup m "project") = true := by
      rw [hproj]
      simp [truthy, bne_iff_ne.mpr hv]
    show (resolvedProject m d).getD "" = v
    simp only [resolvedProject]
    rw [hpt, if_pos rfl, hproj]
    rfl

/-- C2 witness: concrete argument lists exercising each precedence rule. -/
theorem parse_flag_precedence_witness :
    parseRunOpts mapPrecedence none = .ok reqPrecedence ∧
    reqPrecedence.configuration = some "production" ∧
    reqPrecedence.project = "other" ∧
    parseRunOpts mapConfigFlag none = .ok reqConfigFlag ∧
    reqConfigFlag.configuration = some "staging" := by
  have h1 : parseRunOpts mapPrecedence none = .ok reqPrecedence := by decide
  have h2 : parseRunOpts mapConfigFlag none = .ok reqConfigFlag := by decide
  refine ⟨h1, ?_, ?_, h2, ?_⟩
  · exact (parse_flag_precedence mapPrecedence none (by decide) reqPrecedence h1).1
      (by decide)
  · exact (parse_flag_precedence mapPrecedence none (by decide) reqPrecedence h1).2.2
      "other" (by decide) (by decide)
  · exact (parse_flag_precedence mapConfigFlag none (by decide) reqConfigFlag h2).2.1
      "staging" (by decide) (by decide) (Or.inl (by decide))

/-- C4: parse fails with the invalid-invocation error exactly when no
positional token is present, or when, after the default project name and
the flag overrides are applied, the project or the target is still empty
(`undefined` or `""`); in every other case it returns a request whose
`project` and `target` are non-empty. -/
theorem parse_invalid_invocation_iff (m : List (String × JVal)) (d : Option String) :
    (parseRunOpts m d = .error .invalidInvocation ↔
      posFirst m = none ∨ truthyStr (resolvedProject m d) = false ∨
        truthyStr (resolvedTarget m) = false) ∧
    (∀ r, parseRunOpts m d = .ok r → r.project ≠ "" ∧ r.target ≠ "") := by
  constructor
  · rw [parseRunOpts_error_iff]
    constructor
    · rintro (h | h | h | h)
      · exact Or.inl (posFirst_none_of_us_falsy m h)
      · rcases hpf : posFirst m with _ | s
        · exact Or.inl rfl
        · rw [hpf] at h
          have hs : s = "" := by
            by_contra hne
            rw [show truthyStr (some s) = (s != "") from rfl,
              bne_iff_ne.mpr hne] at h
            exact Bool.noConfusion h
          subst hs
          refine Or.inr (Or.inr ?_)
          have hrt : resolvedTarget m = (splitOnChar ':' "")[1]? := by
            simp only [resolvedTarget, positionalParts, hpf, Option.getD_some]
          rw [hrt]
          decide
      · exact Or.inr (Or.inl h)
      · exact Or.inr (Or.inr h)
    · rintro (h | h | h)
      · exact Or.inr (Or.inl (by rw [h]; rfl))
      · exact Or.inr (Or.inr (Or.inl h))
      · exact Or.inr (Or.inr (Or.inr h))
  · intro r hr
    rw [parseRunOpts_ok_iff] at hr
    obtain ⟨-, -, h3, h4, hrec⟩ := hr
    subst hrec
    obtain ⟨s, hs, hne⟩ := (truthyStr_eq_true_iff _).mp h3
    obtain ⟨t, hts, htne⟩ := (truthyStr_eq_true_iff _).mp h4
    constructor
    · show (resolvedProject m d).getD "" ≠ ""
      rw [hs]
      exact hne
    · show (resolvedTarget m).getD "" ≠ ""
      rw [hts]
      exact htne

/-- C4 witness: a flagless empty invocation fails; a well-formed invocation
parses with non-empty project and target. -/
theorem parse_invalid_invocation_iff_witness :
    parseRunOpts mapNoPositional none = .error .invalidInvocation ∧
    reqResidual.project ≠ "" ∧ reqResidual.target ≠ "" := by
  refine ⟨(parse_invalid_invocation_iff mapNoPositional none).1.mpr
    (Or.inl (by decide)), ?_⟩
  exact (parse_invalid_invocation_iff mapResidual none).2 reqResidual (by decide)

/-- C7: the positional token is split on `:` into at most three parts bound
in order to project, target and configuration (parts beyond the third are
discarded, missing parts are absent): absent overriding flags, the parsed
request carries exactly those segments. -/
theorem parse_positional_split (m : List (String × JVal)) (d : Option String)
    (s p t : String)
    (hs : posFirst m = some s)
    (hp : (splitOnChar ':' s)[0]? = some p) (hpne : p ≠ "")
    (ht : (splitOnChar ':' s)[1]? = some t) (htne : t ≠ "")
    (hcf : truthy (alookup m "configuration") = false)
    (hprod : truthy (alookup m "prod") = false)
    (hproj : truthy (alookup m "project") = false) :
    parseRunOpts m d = .ok
      { project := p, target := t, configuration := (splitOnChar ':' s)[2]?
        help := truthy (alookup m "help"), runOptions := stripRecognized m } := by
  have hsne : s ≠ "" := by
    intro h0
    rw [h0] at hp
    have hx : (splitOnChar ':' "")[0]? = some "" := by decide
    rw [hx] at hp
    exact hpne (Option.some.inj hp).symm
  have hparts : positionalParts m = splitOnChar ':' s := by
    simp only [positionalParts, hs, Option.getD_some]
  have hrt : resolvedTarget m = some t := by
    rw [resolvedTarget, hparts, ht]
  have hrp : resolvedProject m d = some p := by
    simp [resolvedProject, hparts, hp, hproj, truthyStr, bne_iff_ne.mpr hpne]
  have hrc : resolvedConfiguration m = (splitOnChar ':' s)[2]? := by
    simp [resolvedConfiguration, hparts, hcf, hprod]
  rw [parseRunOpts_ok_iff]
  refine ⟨posFirst_some_us_truthy m s hs, ?_, ?_, ?_, ?_⟩
  · rw [hs]
    exact bne_iff_ne.mpr hsne
  · rw [hrp]
    exact bne_iff_ne.mpr hpne
  · rw [hrt]
    exact bne_iff_ne.mpr htne
  · rw [hrp, hrt, hrc]
    rfl

/-- C7 witness: `proj:build` binds project and target with no configuration;
a four-part token binds the first three parts and discards the rest. -/
theorem parse_positional_split_witness :
    parseRunOpts mapPositional none = .ok
      { project := "proj", target := "build", configuration := none,
        help := false, runOptions := [] } ∧
    parseRunOpts mapPositional4 none = .ok
      { project := "p", target := "t", configuration := some "c",
        help := false, runOptions := [] } := by
  constructor
  · have h := parse_positional_split mapPositional none "proj:build" "proj" "build"
      (by decide) (by decide) (by decide) (by decide) (by decide) (by decide)
      (by decide) (by decide)
    exact h.trans (by decide)
  · have h := parse_positional_split mapPositional4 none "p:t:c:extra" "p" "t"
      (by decide) (by decide) (by decide) (by decide) (by decide) (by decide)
      (by decide) (by decide)
    exact h.trans (by decide)

/-- C8: after a successful parse, the recognized keys (`help`, the
positional holder `_`, `c`, `configuration`, `prod`, `project`) are absent
from the returned residual options, and every other key keeps the value it
had in the parsed options map. -/
theorem parse_strips_recognized_keys (m : List (String × JVal)) (d : Option String)
    (r : RunOptions) (hr : parseRunOpts m d = .ok r) :
    (alookup r.runOptions "help" = none ∧ alookup r.runOptions "_" = none ∧
      alookup r.runOptions "c" = none ∧ alookup r.runOptions "configuration" = none ∧
      alookup r.runOptions "prod" = none ∧ alookup r.runOptions "project" = none) ∧
    (∀ k, k ≠ "help" → k ≠ "_" → k ≠ "c" → k ≠ "configuration" → k ≠ "prod" →
      k ≠ "project" → alookup r.runOptions k = alookup m k) := by
  rw [parseRunOpts_ok_iff] at hr
  obtain ⟨-, -, -, -, hrec⟩ := hr
  subst hrec
  constructor
  · refine ⟨?_, ?_, ?_, ?_, ?_, ?_⟩ <;>
      simp [stripRecognized, alookup_jdelete]
  · intro k h1 h2 h3 h4 h5 h6
    simp [stripRecognized, alookup_jdelete, h1, h2, h3, h4, h5, h6]

/-- C8 witness: the residual options of a concrete parse drop the
recognized keys and keep a pass-through key unchanged. -/
theorem parse_strips_recognized_keys_witness :
    alookup reqResidual.runOptions "help" = none ∧
    alookup reqResidual.runOptions "prod" = none ∧
    alookup reqResidual.runOptions "watch" = alookup mapResidual "watch" := by
  have h := parse_strips_recognized_keys mapResidual none reqResidual (by decide)
  exact ⟨h.1.1, h.1.2.2.2.2.1,
    h.2 "watch" (by decide) (by decide) (by decide) (by decide) (by decide) (by decide)⟩

/-- C10: a `configuration` or `project` flag whose value is the empty string
is falsy, so it overrides nothing: parse behaves exactly as if the flag were
absent from the options map. -/
theorem empty_string_flag_no_override (m : List (String × JVal)) (d : Option String) :
    (alookup m "configuration" = some (JVal.str "") →
      parseRunOpts m d = parseRunOpts (jdelete m "configuration") d) ∧
    (alookup m "project" = some (JVal.str "") →
      parseRunOpts m d = parseRunOpts (jdelete m "project") d) := by
  constructor
  · intro h
    have e_us : alookup (jdelete m "configuration") "_" = alookup m "_" := by
      rw [alookup_jdelete, if_neg (by decide)]
    have e_help : alookup (jdelete m "configuration") "help" = alookup m "help" := by
      rw [alookup_jdelete, if_neg (by decide)]
    have e_prod : alookup (jdelete m "configuration") "prod" = alookup m "prod" := by
      rw [alookup_jdelete, if_neg (by decide)]
    have e_proj : alookup (jdelete m "configuration") "project" = alookup m "project" := by
      rw [alookup_jdelete, if_neg (by decide)]
    have e_cf : alookup (jdelete m "configuration") "configuration" = none := by
      rw [alookup_jdelete, if_pos rfl]
    have e_pos : posFirst (jdelete m "configuration") = posFirst m := by
      rw [posFirst, posFirst, e_us]
    have e_parts : positionalParts (jdelete m "configuration") = positionalParts m := by
      rw [positionalParts, positionalParts, e_pos]
    have e_rt : resolvedTarget (jdelete m "configuration") = resolvedTarget m := by
      rw [resolvedTarget, resolvedTarget, e_parts]
    have e_rp : resolvedProject (jdelete m "configuration") d = resolvedProject m d := by
      simp only [resolvedProject, e_parts, e_proj]
    have e_rc : resolvedConfiguration (jdelete m "configuration") =
        resolvedConfiguration m := by
      simp only [resolvedConfiguration, e_parts, e_prod, e_cf, h]
      simp [truthy]
    have e_strip : stripRecognized (jdelete m "configuration") = stripRecognized m := by
      rw [stripRecognized, stripRecognized,
        jdelete_comm m "configuration" "help",
        jdelete_comm (jdelete m "help") "configuration" "_",
        jdelete_comm (jdelete (jdelete m "help") "_") "configuration" "c",
        jdelete_idem]
    simp only [parseRunOpts, e_us, e_pos, e_rp, e_rt, e_rc, e_help, e_strip]
  · intro h
    have e_us : alookup (jdelete m "project") "_" = alookup m "_" := by
      rw [alookup_jdelete, if_neg (by decide)]
    have e_help : alookup (jdelete m "project") "help" = alookup m "help" := by
      rw [alookup_jdelete, if_neg (by decide)]
    have e_prod : alookup (jdelete m "project") "prod" = alookup m "prod" := by
      rw [alookup_jdelete, if_neg (by decide)]
    have e_cf : alookup (jdelete m "project") "configuration" =
        alookup m "configuration" := by
      rw [alookup_jdelete, if_neg (by decide)]
    have e_proj : alookup (jdelete m "project") "project" = none := by
      rw [alookup_jdelete, if_pos rfl]
    have e_pos : posFirst (jdelete m "project") = posFirst m := by
      rw [posFirst, posFirst, e_us]
    have e_parts : positionalParts (jdelete m "project") = positionalParts m := by
      rw [positionalParts, positionalParts, e_pos]
    have e_rt : resolvedTarget (jdelete m "project") = resolvedTarget m := by
      rw [resolvedTarget, resolvedTarget, e_parts]
    have e_rp : resolvedProject (jdelete m "project") d = resolvedProject m d := by
      simp only [resolvedProject, e_parts, e_proj, h]
      simp [truthy]
    have e_rc : resolvedConfiguration (jdelete m "project") =
        resolvedConfiguration m := by
      simp only [resolvedConfiguration, e_parts, e_prod, e_cf]
    have e_strip : stripRecognized (jdelete m "project") = stripRecognized m := by
      rw [stripRecognized, stripRecognized,
        jdelete_comm m "project" "help",
        jdelete_comm (jdelete m "help") "project" "_",
        jdelete_comm (jdelete (jdelete m "help") "_") "project" "c",
        jdelete_comm (jdelete (jdelete (jdelete m "help") "_") "c") "project"
          "configuration",
        jdelete_comm (jdelete (jdelete (jdelete (jdelete m "help") "_") "c")
          "configuration") "project" "prod",
        jdelete_idem]
    simp only [parseRunOpts, e_us, e_pos, e_rp, e_rt, e_rc, e_help, e_strip]

/-- C10 witness: with both flags present as empty strings, parse agrees with
the flag-deleted maps and keeps the positional project and configuration. -/
theorem empty_string_flag_no_override_witness :
    parseRunOpts mapEmptyFlags none =
      parseRunOpts (jdelete mapEmptyFlags "configuration") none ∧
    parseRunOpts mapEmptyFlags none =
      parseRunOpts (jdelete mapEmptyFlags "project") none ∧
    parseRunOpts mapEmptyFlags none = .ok
      { project := "p", target := "t", configuration := some "c", help := false,
        runOptions := [] } := by
  refine ⟨(empty_string_flag_no_override mapEmptyFlags none).1 (by decide),
    (empty_string_flag_no_override mapEmptyFlags none).2 (by decide), by decide⟩

end NxRun
